import Mathlib

/-!
Shallow embedding of `serial_test`'s `src/code_lock.rs`.

The source file manages a process-wide registry (`LOCKS : DashMap<String,
UniqueReentrantMutex>`), an identity counter (`MUTEX_ID : AtomicU32`,
starting at 1, `fetch_add(1)` wrapping at 2^32), and a wait policy
(`MAX_WAIT : RwLock<Duration>`, default 60 seconds).  `check_new_key(name)`
loops: a non-blocking `try_get` probe (Present / Locked / Absent), then a
non-blocking `try_entry` insert, then (only on the path where `try_entry`
failed) a timeout check `start.elapsed() > wait_duration()` that panics.

Modelling choices:
* `Duration` is `Nat` nanoseconds.
* The three statics are folded into one explicit `GlobalState`.
* The coordination primitive `Locks` (from `crate::rwlock`, an external
  collaborator that the spec leaves opaque) is modelled from the spec as an
  abstract state type with abstract operations, packaged in `LocksImpl`.
* Concurrency in `check_new_key` is modelled per loop iteration by an
  environment record `IterEnv`: whether the `try_get` probe reports the
  bucket as locked, whether `try_entry` fails to acquire its lock, the
  elapsed time observed at this iteration, and an optional concurrent
  `set_max_wait` taking effect before the iteration runs.  The loop itself
  is driven by a finite schedule of such records (fuel-style); exhausting
  the schedule yields the artificial outcome `ranOut`.
* A panic is modelled as the `timedOut` outcome carrying the formatted
  message's data (key name and elapsed duration).
-/

/-- Durations as nanosecond counts, mirroring `std::time::Duration`. -/
abbrev Duration := Nat

/-- Model of Rust's `Duration::from_secs`. -/
def durationFromSecs (n : Nat) : Duration := n * 1000000000

/-- Modelled from the spec: the opaque Coordination Lock collaborator
(`crate::rwlock::Locks` and `MutexGuardWrapper`, not part of the visible
core).  Per spec section 1 it is "treated as an opaque collaborator"; we
model it as an arbitrary state type `L` with a fresh-state constant and
state transformers for serial acquisition (returning a guard) and for
entering/leaving parallel mode. -/
structure LocksImpl where
  L : Type
  Guard : Type
  newLocks : L
  serial : L → Guard × L
  startParallelL : L → L
  endParallelL : L → L

/-- A trivial instantiation of the opaque collaborator, used to evaluate
runs on concrete inputs. -/
def unitImpl : LocksImpl where
  L := Unit
  Guard := Unit
  newLocks := ()
  serial := fun l => ((), l)
  startParallelL := fun l => l
  endParallelL := fun l => l

/-- The `UniqueReentrantMutex` struct: a coordination-lock state plus the immutable
numeric identity `id` (a `u32` in the source). -/
structure UniqueReentrantMutex (L : Type) where
  locks : L
  id : Nat

/-- The process-wide statics of `code_lock.rs` folded into one state:
`LOCKS` (the registry, as an insertion-ordered association list),
`MUTEX_ID` (the `AtomicU32` counter) and `MAX_WAIT` (the policy duration). -/
structure GlobalState (L : Type) where
  LOCKS : List (String × UniqueReentrantMutex L)
  MUTEX_ID : Nat
  MAX_WAIT : Duration

/-- The statics' initial values: empty map, counter `AtomicU32::new(1)`,
policy `Duration::from_secs(60)`. -/
def initialGlobal (impl : LocksImpl) : GlobalState impl.L :=
  ⟨[], 1, durationFromSecs 60⟩

/-- Registry lookup for a key (read-only map access). -/
def lookupKey {L : Type} (k : String) : List (String × UniqueReentrantMutex L) → Option (UniqueReentrantMutex L)
  | [] => none
  | (k', w) :: rest => if k' = k then some w else lookupKey k rest

/-- Model of `impl Default for UniqueReentrantMutex`: a fresh coordination lock and
`id: MUTEX_ID.fetch_add(1, SeqCst)` — the counter's previous value, the
counter advancing with `u32` wrap-around. -/
def UniqueReentrantMutex.mkDefault (impl : LocksImpl) (s : GlobalState impl.L) :
    UniqueReentrantMutex impl.L × GlobalState impl.L :=
  (⟨impl.newLocks, s.MUTEX_ID⟩, ⟨s.LOCKS, (s.MUTEX_ID + 1) % 4294967296, s.MAX_WAIT⟩)

/-- Model of `pub fn set_max_wait(max_wait: Duration)`: overwrite `MAX_WAIT`. -/
def set_max_wait {L : Type} (max_wait : Duration) (s : GlobalState L) : GlobalState L :=
  ⟨s.LOCKS, s.MUTEX_ID, max_wait⟩

/-- Model of `pub(crate) fn wait_duration() -> Duration`: read `MAX_WAIT`. -/
def wait_duration {L : Type} (s : GlobalState L) : Duration :=
  s.MAX_WAIT

/-- Model of `dashmap::try_result::TryResult` (payload dropped, as in the source's
`TryResult::Present(_)`). -/
inductive TryResult
  | Present
  | Locked
  | Absent

/-- One loop iteration's environment: a concurrent `set_max_wait` taking
effect before the iteration (if any), the `start.elapsed()` value observed
at this iteration, whether `LOCKS.try_get` reports the bucket `Locked`, and
whether `LOCKS.try_entry` fails to acquire its internal lock. -/
structure IterEnv where
  setMaxWait : Option Duration
  elapsed : Duration
  getLocked : Bool
  entryLocked : Bool

/-- Apply the environment's concurrent `set_max_wait`, if any. -/
def applySet {L : Type} (e : IterEnv) (s : GlobalState L) : GlobalState L :=
  match e.setMaxWait with
  | some d => set_max_wait d s
  | none => s

/-- Model of `LOCKS.try_get(name)`: `Locked` when the bucket is contended, otherwise
determined by the map's contents. -/
def tryGet {L : Type} (locked : Bool) (name : String) (s : GlobalState L) : TryResult :=
  if locked then .Locked
  else
    match lookupKey name s.LOCKS with
    | some _ => .Present
    | none => .Absent

/-- Model of `LOCKS.try_entry(name).or_default()`: install a default-constructed
wrapper if the slot is vacant, leave an occupied slot untouched. -/
def orDefaultInsert (impl : LocksImpl) (name : String) (s : GlobalState impl.L) : GlobalState impl.L :=
  match lookupKey name s.LOCKS with
  | some _ => s
  | none =>
    match UniqueReentrantMutex.mkDefault impl s with
    | (w, s') => ⟨(name, w) :: s'.LOCKS, s'.MUTEX_ID, s'.MAX_WAIT⟩

/-- Outcome of a `check_new_key` call: normal return, a panic carrying the
timeout message's key and elapsed duration, or exhaustion of the supplied
iteration schedule while the loop is still running. -/
inductive Outcome (L : Type)
  | returned (s : GlobalState L)
  | timedOut (name : String) (elapsed : Duration) (s : GlobalState L)
  | ranOut (s : GlobalState L)

/-- The global state carried by an outcome. -/
def Outcome.state {L : Type} : Outcome L → GlobalState L
  | .returned s => s
  | .timedOut _ _ s => s
  | .ranOut s => s

/-- Model of `pub(crate) fn check_new_key(name: &str)`, driven by a schedule of
iteration environments.  Mirrors the source loop: `try_get` Present
returns; Locked `continue`s (skipping the timeout check); Absent falls to
`try_entry`, whose success installs via `or_default` and returns, and whose
failure falls through to the timeout check `duration > wait_duration()`,
which panics or goes around the loop again. -/
def check_new_key (impl : LocksImpl) (name : String) :
    GlobalState impl.L → List IterEnv → Outcome impl.L
  | s, [] => .ranOut s
  | s, e :: rest =>
    let s1 := applySet e s
    match tryGet e.getLocked name s1 with
    | .Present => .returned s1
    | .Locked => check_new_key impl name s1 rest
    | .Absent =>
      if e.entryLocked then
        if e.elapsed > wait_duration s1 then .timedOut name e.elapsed s1
        else check_new_key impl name s1 rest
      else .returned (orDefaultInsert impl name s1)

/-- Model of `UniqueReentrantMutex::lock`: delegate to `self.locks.serial()`. -/
def UniqueReentrantMutex.lock (impl : LocksImpl)
    (w : UniqueReentrantMutex impl.L) (g : GlobalState impl.L) :
    impl.Guard × UniqueReentrantMutex impl.L × GlobalState impl.L :=
  match impl.serial w.locks with
  | (gd, l') => (gd, ⟨l', w.id⟩, g)

/-- Model of `UniqueReentrantMutex::start_parallel`: delegate to
`self.locks.start_parallel()`. -/
def UniqueReentrantMutex.start_parallel (impl : LocksImpl)
    (w : UniqueReentrantMutex impl.L) (g : GlobalState impl.L) :
    UniqueReentrantMutex impl.L × GlobalState impl.L :=
  (⟨impl.startParallelL w.locks, w.id⟩, g)

/-- Model of `UniqueReentrantMutex::end_parallel`: delegate to
`self.locks.end_parallel()`. -/
def UniqueReentrantMutex.end_parallel (impl : LocksImpl)
    (w : UniqueReentrantMutex impl.L) (g : GlobalState impl.L) :
    UniqueReentrantMutex impl.L × GlobalState impl.L :=
  (⟨impl.endParallelL w.locks, w.id⟩, g)

/-- Create `n` wrappers in sequence by default-construction, returning the
assigned identities in creation order. -/
def createIds (impl : LocksImpl) : Nat → GlobalState impl.L → List Nat × GlobalState impl.L
  | 0, s => ([], s)
  | n + 1, s =>
    match UniqueReentrantMutex.mkDefault impl s with
    | (w, s') =>
      match createIds impl n s' with
      | (ids, s'') => (w.id :: ids, s'')

/-! Basic facts about the iteration pieces. -/

theorem applySet_LOCKS {L : Type} (e : IterEnv) (s : GlobalState L) :
    (applySet e s).LOCKS = s.LOCKS := by
  unfold applySet
  cases e.setMaxWait <;> rfl

theorem tryGet_present {L : Type} {gl : Bool} {name : String} {s : GlobalState L}
    (h : tryGet gl name s = .Present) : (lookupKey name s.LOCKS).isSome = true := by
  unfold tryGet at h
  cases hgl : gl with
  | true => rw [hgl] at h; simp at h
  | false =>
    rw [hgl] at h
    simp only [Bool.false_eq_true, if_false] at h
    cases hlk : lookupKey name s.LOCKS with
    | some w => simp
    | none => rw [hlk] at h; simp at h

theorem tryGet_absent {L : Type} {gl : Bool} {name : String} {s : GlobalState L}
    (h : tryGet gl name s = .Absent) : lookupKey name s.LOCKS = none := by
  unfold tryGet at h
  cases hgl : gl with
  | true => rw [hgl] at h; simp at h
  | false =>
    rw [hgl] at h
    simp only [Bool.false_eq_true, if_false] at h
    cases hlk : lookupKey name s.LOCKS with
    | some w => rw [hlk] at h; simp at h
    | none => rfl

theorem check_new_key_cons (impl : LocksImpl) (name : String) (s : GlobalState impl.L)
    (e : IterEnv) (rest : List IterEnv) :
    check_new_key impl name s (e :: rest) =
      match tryGet e.getLocked name (applySet e s) with
      | .Present => .returned (applySet e s)
      | .Locked => check_new_key impl name (applySet e s) rest
      | .Absent =>
        if e.entryLocked then
          if e.elapsed > wait_duration (applySet e s) then
            .timedOut name e.elapsed (applySet e s)
          else check_new_key impl name (applySet e s) rest
        else .returned (orDefaultInsert impl name (applySet e s)) := rfl

theorem orDefaultInsert_mem (impl : LocksImpl) (name : String) (s : GlobalState impl.L) :
    (lookupKey name (orDefaultInsert impl name s).LOCKS).isSome = true := by
  unfold orDefaultInsert
  cases hn : lookupKey name s.LOCKS with
  | some w => simp [hn]
  | none => simp [hn, UniqueReentrantMutex.mkDefault, lookupKey]

theorem orDefaultInsert_preserves (impl : LocksImpl) (name k : String)
    (w : UniqueReentrantMutex impl.L) (s : GlobalState impl.L)
    (h : lookupKey k s.LOCKS = some w) :
    lookupKey k (orDefaultInsert impl name s).LOCKS = some w := by
  unfold orDefaultInsert
  cases hn : lookupKey name s.LOCKS with
  | some w' => simpa [hn] using h
  | none =>
    simp only [hn, UniqueReentrantMutex.mkDefault, lookupKey]
    by_cases hk : name = k
    · subst hk; rw [hn] at h; cases h
    · simpa [hk] using h

/-! Postcondition and frame of a whole `check_new_key` run. -/

theorem check_new_key_returned_mem (impl : LocksImpl) (name : String) :
    ∀ (env : List IterEnv) (s s' : GlobalState impl.L),
      check_new_key impl name s env = .returned s' →
      (lookupKey name s'.LOCKS).isSome = true := by
  intro env
  induction env with
  | nil =>
    intro s s' h
    simp [check_new_key] at h
  | cons e rest ih =>
    intro s s' h
    rw [check_new_key_cons] at h
    cases htg : tryGet e.getLocked name (applySet e s) with
    | Present =>
      rw [htg] at h
      cases h
      exact tryGet_present htg
    | Locked =>
      rw [htg] at h
      exact ih (applySet e s) s' h
    | Absent =>
      rw [htg] at h
      cases hel : e.entryLocked with
      | true =>
        rw [hel] at h
        simp only [if_true] at h
        by_cases ht : e.elapsed > wait_duration (applySet e s)
        · rw [if_pos ht] at h; cases h
        · rw [if_neg ht] at h
          exact ih (applySet e s) s' h
      | false =>
        rw [hel] at h
        simp only [Bool.false_eq_true, if_false] at h
        cases h
        exact orDefaultInsert_mem impl name (applySet e s)

theorem check_new_key_preserves (impl : LocksImpl) (name : String) :
    ∀ (env : List IterEnv) (s : GlobalState impl.L) (k : String)
      (w : UniqueReentrantMutex impl.L),
      lookupKey k s.LOCKS = some w →
      lookupKey k (Outcome.state (check_new_key impl name s env)).LOCKS = some w := by
  intro env
  induction env with
  | nil =>
    intro s k w h
    simpa [check_new_key, Outcome.state] using h
  | cons e rest ih =>
    intro s k w h
    have h1 : lookupKey k (applySet e s).LOCKS = some w := by
      rw [applySet_LOCKS]; exact h
    rw [check_new_key_cons]
    cases htg : tryGet e.getLocked name (applySet e s) with
    | Present => simpa [Outcome.state] using h1
    | Locked => exact ih (applySet e s) k w h1
    | Absent =>
      cases hel : e.entryLocked with
      | true =>
        simp only [if_true]
        by_cases ht : e.elapsed > wait_duration (applySet e s)
        · rw [if_pos ht]
          simpa [Outcome.state] using h1
        · rw [if_neg ht]
          exact ih (applySet e s) k w h1
      | false =>
        simp only [Bool.false_eq_true, if_false]
        simpa [Outcome.state] using
          orDefaultInsert_preserves impl name k w (applySet e s) h1

/-- Claim C1: after `check_new_key(name)` returns normally, the registry
contains an entry for `name`; and the call never removes or replaces any
existing entry (for any outcome), so repeated calls leave the wrapper
installed first in place and every later lookup of a key yields the same
wrapper as before the call. -/
theorem claim_C1 (impl : LocksImpl) (name : String) (s : GlobalState impl.L)
    (env : List IterEnv) :
    (∀ s', check_new_key impl name s env = .returned s' →
      (lookupKey name s'.LOCKS).isSome = true) ∧
    (∀ (k : String) (w : UniqueReentrantMutex impl.L),
      lookupKey k s.LOCKS = some w →
      lookupKey k (Outcome.state (check_new_key impl name s env)).LOCKS = some w) :=
  ⟨fun s' h => check_new_key_returned_mem impl name env s s' h,
   fun k w h => check_new_key_preserves impl name env s k w h⟩

theorem claim_C1_w :
    (lookupKey "a"
      (Outcome.state (check_new_key unitImpl "a"
        (⟨[("b", ⟨(), 7⟩)], 8, durationFromSecs 60⟩ : GlobalState unitImpl.L)
        [⟨none, 0, false, false⟩])).LOCKS).isSome = true ∧
    lookupKey "b"
      (Outcome.state (check_new_key unitImpl "a"
        (⟨[("b", ⟨(), 7⟩)], 8, durationFromSecs 60⟩ : GlobalState unitImpl.L)
        [⟨none, 0, false, false⟩])).LOCKS = some ⟨(), 7⟩ := by
  constructor
  · exact (claim_C1 unitImpl "a"
      (⟨[("b", ⟨(), 7⟩)], 8, durationFromSecs 60⟩ : GlobalState unitImpl.L)
      [⟨none, 0, false, false⟩]).1
      (orDefaultInsert unitImpl "a"
        (⟨[("b", ⟨(), 7⟩)], 8, durationFromSecs 60⟩ : GlobalState unitImpl.L)) rfl
  · exact (claim_C1 unitImpl "a"
      (⟨[("b", ⟨(), 7⟩)], 8, durationFromSecs 60⟩ : GlobalState unitImpl.L)
      [⟨none, 0, false, false⟩]).2 "b" ⟨(), 7⟩ rfl

/-! Inversion of the timed-out outcome: a panic happens only at the timeout
check, hence carries the probed key's name and an elapsed duration strictly
above the wait duration current at that iteration. -/

theorem check_new_key_timedOut_inv (impl : LocksImpl) (name : String) :
    ∀ (env : List IterEnv) (s : GlobalState impl.L) (nm : String)
      (el : Duration) (sf : GlobalState impl.L),
      check_new_key impl name s env = .timedOut nm el sf →
      nm = name ∧ wait_duration sf < el := by
  intro env
  induction env with
  | nil =>
    intro s nm el sf h
    simp [check_new_key] at h
  | cons e rest ih =>
    intro s nm el sf h
    rw [check_new_key_cons] at h
    cases htg : tryGet e.getLocked name (applySet e s) with
    | Present => rw [htg] at h; cases h
    | Locked => rw [htg] at h; exact ih (applySet e s) nm el sf h
    | Absent =>
      rw [htg] at h
      cases hel : e.entryLocked with
      | true =>
        rw [hel] at h
        simp only [if_true] at h
        by_cases ht : e.elapsed > wait_duration (applySet e s)
        · rw [if_pos ht] at h
          cases h
          exact ⟨rfl, ht⟩
        · rw [if_neg ht] at h
          exact ih (applySet e s) nm el sf h
      | false =>
        rw [hel] at h
        simp only [Bool.false_eq_true, if_false] at h
        cases h

/-- Claim C3 (amended): when the loop reaches the timeout check — the probe
found the key absent and the try-insert failed to acquire its lock — with
elapsed time exceeding the wait duration current at that iteration, the
call transitions to the terminal `timedOut` outcome.  (As stated the claim
is false: the `Locked` probe branch `continue`s without reaching the
timeout check, so a contended probe past the deadline retries, and the call
can still return normally afterwards; see the counterexample.) -/
theorem claim_C3 (impl : LocksImpl) (name : String) (s : GlobalState impl.L)
    (e : IterEnv) (rest : List IterEnv)
    (h1 : e.getLocked = false)
    (h2 : lookupKey name (applySet e s).LOCKS = none)
    (h3 : e.entryLocked = true)
    (h4 : wait_duration (applySet e s) < e.elapsed) :
    check_new_key impl name s (e :: rest) = .timedOut name e.elapsed (applySet e s) := by
  rw [check_new_key_cons]
  have htg : tryGet e.getLocked name (applySet e s) = .Absent := by
    unfold tryGet
    rw [h1, h2]
    rfl
  rw [htg]
  simp only [h3, if_true]
  rw [if_pos h4]

theorem claim_C3_cx :
    check_new_key unitImpl "a"
      (⟨[("a", ⟨(), 1⟩)], 2, 0⟩ : GlobalState unitImpl.L)
      [⟨none, 5, true, false⟩, ⟨none, 6, false, false⟩]
      = .returned (⟨[("a", ⟨(), 1⟩)], 2, 0⟩ : GlobalState unitImpl.L) ∧
    wait_duration (⟨[("a", ⟨(), 1⟩)], 2, 0⟩ : GlobalState unitImpl.L) < 5 :=
  ⟨rfl, by decide⟩

theorem claim_C3_w :
    check_new_key unitImpl "t" (⟨[], 1, 10⟩ : GlobalState unitImpl.L)
      [⟨none, 11, false, true⟩]
      = .timedOut "t" 11 (applySet ⟨none, 11, false, true⟩
          (⟨[], 1, 10⟩ : GlobalState unitImpl.L)) :=
  claim_C3 unitImpl "t" (⟨[], 1, 10⟩ : GlobalState unitImpl.L)
    ⟨none, 11, false, true⟩ [] rfl rfl rfl (by decide)

/-- Claim C4: a timed-out `check_new_key` call panics rather than
returning, and the panic message's data name the probed key and an elapsed
duration at least the wait duration configured at that moment. -/
theorem claim_C4 (impl : LocksImpl) (name : String) (s : GlobalState impl.L)
    (env : List IterEnv) (nm : String) (el : Duration) (sf : GlobalState impl.L)
    (h : check_new_key impl name s env = .timedOut nm el sf) :
    nm = name ∧ wait_duration sf ≤ el :=
  ⟨(check_new_key_timedOut_inv impl name env s nm el sf h).1,
   Nat.le_of_lt (check_new_key_timedOut_inv impl name env s nm el sf h).2⟩

theorem claim_C4_w :
    "x" = "x" ∧ wait_duration (⟨[], 3, 0⟩ : GlobalState unitImpl.L) ≤ 5 :=
  claim_C4 unitImpl "x" (⟨[], 3, 0⟩ : GlobalState unitImpl.L)
    [⟨none, 5, false, true⟩] "x" 5 (⟨[], 3, 0⟩ : GlobalState unitImpl.L) rfl

/-- Claim C7: transient contention never surfaces as a failure.  A probe
reporting `Locked` makes the loop go around again; a failed try-insert
within the time budget makes the loop go around again; and the only failing
outcome a run can produce is the timeout, which requires the elapsed time
to exceed the current wait duration. -/
theorem claim_C7 :
    (∀ (impl : LocksImpl) (name : String) (s : GlobalState impl.L)
        (e : IterEnv) (rest : List IterEnv), e.getLocked = true →
        check_new_key impl name s (e :: rest)
          = check_new_key impl name (applySet e s) rest) ∧
    (∀ (impl : LocksImpl) (name : String) (s : GlobalState impl.L)
        (e : IterEnv) (rest : List IterEnv), e.getLocked = false →
        lookupKey name (applySet e s).LOCKS = none → e.entryLocked = true →
        e.elapsed ≤ wait_duration (applySet e s) →
        check_new_key impl name s (e :: rest)
          = check_new_key impl name (applySet e s) rest) ∧
    (∀ (impl : LocksImpl) (name : String) (s : GlobalState impl.L)
        (env : List IterEnv) (nm : String) (el : Duration)
        (sf : GlobalState impl.L),
        check_new_key impl name s env = .timedOut nm el sf →
        wait_duration sf < el) := by
  refine ⟨?_, ?_, ?_⟩
  · intro impl name s e rest h
    rw [check_new_key_cons]
    have htg : tryGet e.getLocked name (applySet e s) = .Locked := by
      unfold tryGet
      rw [h]
      simp
    rw [htg]
  · intro impl name s e rest h1 h2 h3 h4
    rw [check_new_key_cons]
    have htg : tryGet e.getLocked name (applySet e s) = .Absent := by
      unfold tryGet
      rw [h1, h2]
      rfl
    rw [htg]
    simp only [h3, if_true]
    rw [if_neg (Nat.not_lt.mpr h4)]
  · intro impl name s env nm el sf h
    exact (check_new_key_timedOut_inv impl name env s nm el sf h).2

theorem claim_C7_w :
    check_new_key unitImpl "k" (⟨[], 1, 5⟩ : GlobalState unitImpl.L)
        [⟨none, 0, true, false⟩]
      = check_new_key unitImpl "k"
          (applySet ⟨none, 0, true, false⟩ (⟨[], 1, 5⟩ : GlobalState unitImpl.L)) [] ∧
    check_new_key unitImpl "k" (⟨[], 1, 5⟩ : GlobalState unitImpl.L)
        [⟨none, 3, false, true⟩]
      = check_new_key unitImpl "k"
          (applySet ⟨none, 3, false, true⟩ (⟨[], 1, 5⟩ : GlobalState unitImpl.L)) [] ∧
    wait_duration (⟨[], 1, 0⟩ : GlobalState unitImpl.L) < 2 :=
  ⟨claim_C7.1 unitImpl "k" (⟨[], 1, 5⟩ : GlobalState unitImpl.L)
      ⟨none, 0, true, false⟩ [] rfl,
   claim_C7.2.1 unitImpl "k" (⟨[], 1, 5⟩ : GlobalState unitImpl.L)
      ⟨none, 3, false, true⟩ [] rfl rfl rfl (by decide),
   claim_C7.2.2 unitImpl "k" (⟨[], 1, 0⟩ : GlobalState unitImpl.L)
      [⟨none, 2, false, true⟩] "k" 2 (⟨[], 1, 0⟩ : GlobalState unitImpl.L) rfl⟩

/-- Claim C9: if the first probe is not contended and finds the key
present, `check_new_key` returns normally at once, with the registry
untouched, for every elapsed time and every configured wait duration
(including zero): the panic branch is unreachable on that path. -/
theorem claim_C9 (impl : LocksImpl) (name : String) (s : GlobalState impl.L)
    (e : IterEnv) (rest : List IterEnv)
    (h1 : e.getLocked = false)
    (h2 : (lookupKey name (applySet e s).LOCKS).isSome = true) :
    check_new_key impl name s (e :: rest) = .returned (applySet e s) := by
  rw [check_new_key_cons]
  have htg : tryGet e.getLocked name (applySet e s) = .Present := by
    unfold tryGet
    rw [h1]
    simp only [Bool.false_eq_true, if_false]
    cases hlk : lookupKey name (applySet e s).LOCKS with
    | some w => rfl
    | none => rw [hlk] at h2; simp at h2
  rw [htg]

theorem claim_C9_w :
    check_new_key unitImpl "p" (⟨[("p", ⟨(), 2⟩)], 3, 0⟩ : GlobalState unitImpl.L)
      [⟨none, 999, false, true⟩]
      = .returned (applySet ⟨none, 999, false, true⟩
          (⟨[("p", ⟨(), 2⟩)], 3, 0⟩ : GlobalState unitImpl.L)) :=
  claim_C9 unitImpl "p" (⟨[("p", ⟨(), 2⟩)], 3, 0⟩ : GlobalState unitImpl.L)
    ⟨none, 999, false, true⟩ [] rfl rfl

/-- Claim C5 (amended): the wait-policy duration starts positive (60
seconds), but `set_max_wait` stores exactly the caller's argument, so after
`set_max_wait(d)` the duration equals `d` and is positive precisely when
`d` is; positivity is not preserved for every argument (see the
counterexample with `d = 0`). -/
theorem wait_duration_initial (impl : LocksImpl) :
    wait_duration (initialGlobal impl) = 60000000000 := rfl

theorem claim_C5 (impl : LocksImpl) :
    0 < wait_duration (initialGlobal impl) ∧
    ∀ (d : Duration) (g : GlobalState impl.L),
      wait_duration (set_max_wait d g) = d ∧
      (0 < wait_duration (set_max_wait d g) ↔ 0 < d) :=
  ⟨by rw [wait_duration_initial impl]; norm_num,
   fun d _ => ⟨rfl, Iff.rfl⟩⟩

theorem claim_C5_cx :
    ¬ 0 < wait_duration (set_max_wait 0 (initialGlobal unitImpl)) := by
  decide

/-- Claim C6: before any call to `set_max_wait`, the duration read by
`wait_duration` is exactly 60 seconds. -/
theorem claim_C6 (impl : LocksImpl) :
    wait_duration (initialGlobal impl) = durationFromSecs 60 := by
  rw [wait_duration_initial impl]
  rfl

/-- Claim C8: `set_max_wait` takes effect immediately, including for an
in-progress `check_new_key` loop: a concurrent `set_max_wait(d)` arriving
at an iteration makes the remainder of the run behave exactly as if the
policy had already been `d`, whatever the policy was when the call began;
and a `wait_duration` read after `set_max_wait(d)` yields `d`. -/
theorem claim_C8 (impl : LocksImpl) (name : String)
    (lks : List (String × UniqueReentrantMutex impl.L)) (mid : Nat)
    (w0 d el : Duration) (gl enl : Bool) (rest : List IterEnv) :
    check_new_key impl name (⟨lks, mid, w0⟩ : GlobalState impl.L)
        (⟨some d, el, gl, enl⟩ :: rest)
      = check_new_key impl name (⟨lks, mid, d⟩ : GlobalState impl.L)
        (⟨none, el, gl, enl⟩ :: rest) ∧
    ∀ g : GlobalState impl.L, wait_duration (set_max_wait d g) = d :=
  ⟨rfl, fun _ => rfl⟩

/-- Claim C10: the wrapper operations `lock`, `start_parallel` and
`end_parallel` keep the wrapper's `id` unchanged, return the process-wide
state (registry, identity counter, wait policy) exactly as given, and
produce results independent of that process-wide state — only the `locks`
field may change, as decided by the opaque collaborator. -/
theorem claim_C10 (impl : LocksImpl) (w : UniqueReentrantMutex impl.L)
    (g g' : GlobalState impl.L) :
    ((UniqueReentrantMutex.lock impl w g).2.1.id = w.id ∧
      (UniqueReentrantMutex.lock impl w g).2.2 = g ∧
      (UniqueReentrantMutex.lock impl w g).1
        = (UniqueReentrantMutex.lock impl w g').1 ∧
      (UniqueReentrantMutex.lock impl w g).2.1
        = (UniqueReentrantMutex.lock impl w g').2.1) ∧
    ((UniqueReentrantMutex.start_parallel impl w g).1.id = w.id ∧
      (UniqueReentrantMutex.start_parallel impl w g).2 = g ∧
      (UniqueReentrantMutex.start_parallel impl w g).1
        = (UniqueReentrantMutex.start_parallel impl w g').1) ∧
    ((UniqueReentrantMutex.end_parallel impl w g).1.id = w.id ∧
      (UniqueReentrantMutex.end_parallel impl w g).2 = g ∧
      (UniqueReentrantMutex.end_parallel impl w g).1
        = (UniqueReentrantMutex.end_parallel impl w g').1) := by
  unfold UniqueReentrantMutex.lock UniqueReentrantMutex.start_parallel
    UniqueReentrantMutex.end_parallel
  refine ⟨⟨?_, ?_, ?_, ?_⟩, ⟨rfl, rfl, rfl⟩, ⟨rfl, rfl, rfl⟩⟩ <;>
    cases h : impl.serial w.locks <;> rfl

/-! Identity allocation: the counter behind default-construction. -/

theorem range'_map_mod (m : Nat) :
    ∀ (n a b : Nat), a % m = b % m →
      (List.range' a n).map (fun k => k % m) = (List.range' b n).map (fun k => k % m)
  | 0, _, _, _ => rfl
  | n + 1, a, b, h => by
    have htail := range'_map_mod m n (a + 1) (b + 1)
      (by rw [Nat.add_mod, h, ← Nat.add_mod])
    rw [List.range'_succ, List.range'_succ, List.map_cons, List.map_cons, h, htail]

theorem createIds_fst (impl : LocksImpl) :
    ∀ (n : Nat) (s : GlobalState impl.L), s.MUTEX_ID < 4294967296 →
      (createIds impl n s).1
        = (List.range' s.MUTEX_ID n).map (fun k => k % 4294967296)
  | 0, _, _ => rfl
  | n + 1, s, h => by
    have hlt : (s.MUTEX_ID + 1) % 4294967296 < 4294967296 :=
      Nat.mod_lt _ (by norm_num)
    have ih := createIds_fst impl n
      (⟨s.LOCKS, (s.MUTEX_ID + 1) % 4294967296, s.MAX_WAIT⟩ : GlobalState impl.L) hlt
    have hmod : ((s.MUTEX_ID + 1) % 4294967296) % 4294967296
        = (s.MUTEX_ID + 1) % 4294967296 :=
      Nat.mod_mod_of_dvd _ (dvd_refl _)
    have htail := range'_map_mod 4294967296 n
      ((s.MUTEX_ID + 1) % 4294967296) (s.MUTEX_ID + 1) hmod
    have ih2 : (createIds impl n
        (⟨s.LOCKS, (s.MUTEX_ID + 1) % 4294967296, s.MAX_WAIT⟩ : GlobalState impl.L)).1
        = (List.range' ((s.MUTEX_ID + 1) % 4294967296) n).map
            (fun k => k % 4294967296) := ih
    simp only [createIds, UniqueReentrantMutex.mkDefault]
    rw [List.range'_succ, List.map_cons, Nat.mod_eq_of_lt h]
    rw [ih2, htail]

theorem createIds_init (impl : LocksImpl) (n : Nat) :
    (createIds impl n (initialGlobal impl)).1
      = (List.range' 1 n).map (fun k => k % 4294967296) :=
  createIds_fst impl n (initialGlobal impl) (by norm_num [initialGlobal])

/-- Claim C2 (amended): the n-th wrapper ever created receives identity
`n % 2^32` — the `u32` counter wraps — so for every creation count below
`2^32` (any realistic process) the identities are exactly `1, 2, …, n`:
unique, strictly increasing from 1, with no gaps relative to the creation
count.  At the 2^32-th creation, however, the assigned identity is 0, not
2^32 (see the counterexample), so the claim as stated fails for that
sequence length. -/
theorem claim_C2 (impl : LocksImpl) :
    (∀ n : Nat, (createIds impl n (initialGlobal impl)).1
        = (List.range' 1 n).map (fun k => k % 4294967296)) ∧
    ∀ n : Nat, n < 4294967296 →
      (createIds impl n (initialGlobal impl)).1 = List.range' 1 n := by
  refine ⟨createIds_init impl, fun n hn => ?_⟩
  rw [createIds_init impl n]
  have hid : ∀ k ∈ List.range' 1 n, k % 4294967296 = k := by
    intro k hk
    rcases List.mem_range'.mp hk with ⟨i, hi, rfl⟩
    exact Nat.mod_eq_of_lt (by omega)
  rw [List.map_congr_left hid]
  simp

theorem claim_C2_w :
    (createIds unitImpl 3 (initialGlobal unitImpl)).1 = List.range' 1 3 :=
  (claim_C2 unitImpl).2 3 (by norm_num)

theorem claim_C2_cx :
    ((createIds unitImpl 4294967296 (initialGlobal unitImpl)).1)[4294967295]?
      = some 0 ∧ (0 : Nat) ≠ 4294967296 := by
  constructor
  · rw [createIds_init unitImpl 4294967296]
    rw [List.getElem?_map]
    rw [List.getElem?_range' 1 1 (show 4294967295 < 4294967296 by norm_num)]
    norm_num
  · norm_num
